import Mathlib

/-!
Shallow embedding of the aggregation layer of `src/app/index.js` (a GraphQL
server over three stores: Postgres "store A" for authors, MySQL "store B" for
books, SQLite "store C" for reviews), together with theorems checking the
natural-language specification against it.

Machine numbers of the JavaScript source are modelled as `JsNum`
(`ℚ`-valued or NaN), strings as Lean `String`, and each store as a list of
typed rows.  Store traffic is recorded in an explicit `StoreOp` trace so that
ordering and "no write happened" properties can be stated.
-/

namespace NodeGql

/-! ## JavaScript number model

`Number(x)` on identifier strings, `Number.isInteger`, and comparison with
zero, as used by the resolvers.  The parser covers decimal literals (optional
sign, optional fraction) and whitespace trimming, which is the input space of
the identifier arguments; any other string is NaN. -/

inductive JsNum where
  | nan : JsNum
  | num : ℚ → JsNum
deriving DecidableEq

def JsNum.isNaN : JsNum → Bool
  | .nan => true
  | .num _ => false

/-- Model of `Number.isInteger`. -/
def JsNum.isInteger : JsNum → Bool
  | .nan => false
  | .num q => q.den = 1

/-- Comparison `n > 0` (false for NaN, as every comparison with NaN is). -/
def JsNum.gtZero : JsNum → Bool
  | .nan => false
  | .num q => 0 < q

/-- The `Nat` value of a JS number known to be a positive integer. -/
def JsNum.toNatVal : JsNum → Nat
  | .nan => 0
  | .num q => q.num.toNat

/-- The check `Number.isInteger(n) && n > 0`, the id validation used by
`addBook` and `deleteAuthor`. -/
def isPositiveIntegerNum (n : JsNum) : Bool := n.isInteger && n.gtZero

def digitChar (n : Nat) : Char := Char.ofNat (48 + n)

def isDigitChar (c : Char) : Bool := 48 ≤ c.toNat && c.toNat ≤ 57

def digitVal (c : Char) : Nat := c.toNat - 48

/-- Decimal digits of `n`, most significant first (fuel-based so that it
reduces in the kernel; `fuel ≥ n + 1` suffices). -/
def natDigitsAux : Nat → Nat → List Char
  | 0, _ => []
  | f + 1, n => if n < 10 then [digitChar n] else natDigitsAux f (n / 10) ++ [digitChar (n % 10)]

def natDigits (n : Nat) : List Char := natDigitsAux (n + 1) n

/-- Model of JavaScript `(n).toString()` / template interpolation for a
non-negative integer. -/
def natToString (n : Nat) : String := ⟨natDigits n⟩

/-- Parse a digit run, accumulator style; `none` on any non-digit. -/
def parseDigitsAux : List Char → Nat → Option Nat
  | [], acc => some acc
  | c :: cs, acc => if isDigitChar c then parseDigitsAux cs (10 * acc + digitVal c) else none

/-- Digit run to `Nat`; the empty run parses to `0` (as the whole or
fractional part of a JS decimal literal such as `".5"` or `"3."` does). -/
def parseDigits0 (cs : List Char) : Option Nat := parseDigitsAux cs 0

def isWhitespaceChar (c : Char) : Bool := c = ' ' || c = '\t' || c = '\n' || c = '\r'

def trimChars (cs : List Char) : List Char :=
  ((cs.dropWhile isWhitespaceChar).reverse.dropWhile isWhitespaceChar).reverse

/-- Split at the first `'.'`: the characters before it, and the remainder
(which is empty or starts with `'.'`). -/
def splitAtDot : List Char → List Char × List Char
  | [] => ([], [])
  | c :: cs =>
    if c = '.' then ([], c :: cs)
    else
      let r := splitAtDot cs
      (c :: r.1, r.2)

/-- Unsigned decimal literal: digits, optionally with one `'.'`. -/
def parseDecimalChars (cs : List Char) : Option ℚ :=
  match splitAtDot cs with
  | (whole, []) => (parseDigits0 whole).map (fun n => (n : ℚ))
  | (whole, _ :: frac) =>
    if frac.contains '.' then none
    else if whole.isEmpty && frac.isEmpty then none
    else
      match parseDigits0 whole, parseDigits0 frac with
      | some w, some f => some ((w : ℚ) + (f : ℚ) / ((10 : ℚ) ^ frac.length))
      | _, _ => none

def signedOfParse : Option ℚ → Bool → JsNum
  | none, _ => .nan
  | some q, true => .num (-q)
  | some q, false => .num q

/-- Model of JavaScript `Number(s)` for a string argument: trim whitespace,
empty string is `0`, optional sign, decimal literal, otherwise NaN. -/
def jsNumber (s : String) : JsNum :=
  let t := trimChars s.data
  if t = [] then .num 0
  else if t.head? = some '-' then
    (if t.tail = [] then .nan else signedOfParse (parseDecimalChars t.tail) true)
  else if t.head? = some '+' then
    (if t.tail = [] then .nan else signedOfParse (parseDecimalChars t.tail) false)
  else signedOfParse (parseDecimalChars t) false

/-! ## Date model

`new Date(...)` values returned by the relational drivers, and the two
normalizers `normalizeDate` / `normalizeDateTime` of the row-mapper layer. -/

structure JsDate where
  year : Nat
  month : Nat
  day : Nat
  hour : Nat
  minute : Nat
  second : Nat
  ms : Nat
deriving DecidableEq

/-- Zero-pad the decimal digits of `n` to width at least `w`
(as `toISOString` renders date components). -/
def padDigits (w : Nat) (n : Nat) : List Char :=
  List.replicate (w - (natDigits n).length) '0' ++ natDigits n

/-- Model of `Date.prototype.toISOString`:
`YYYY-MM-DDTHH:mm:ss.sssZ`. -/
def JsDate.toISOString (d : JsDate) : String :=
  ⟨padDigits 4 d.year ++ '-' :: padDigits 2 d.month ++ '-' :: padDigits 2 d.day ++
    'T' :: padDigits 2 d.hour ++ ':' :: padDigits 2 d.minute ++ ':' :: padDigits 2 d.second ++
    '.' :: padDigits 3 d.ms ++ ['Z']⟩

/-- JavaScript `s.slice(0, 10)`. -/
def strSlice10 (s : String) : String := ⟨s.data.take 10⟩

/-- A date-typed column value as surfaced by a store driver: either a native
`Date` object or a string, depending on the driver. -/
inductive SqlDate where
  | vdate : JsDate → SqlDate
  | vstr : String → SqlDate
deriving DecidableEq

/-- Function `normalizeDate` of the source: `null`/`undefined`/`""` (falsy) map to
null; a `Date` maps to `toISOString().slice(0, 10)`; any other value is
stringified and sliced to 10 characters when it has at least 10. -/
def normalizeDate : Option SqlDate → Option String
  | none => none
  | some (.vdate d) => some (strSlice10 d.toISOString)
  | some (.vstr s) =>
    if s = "" then none
    else some (if 10 ≤ s.data.length then strSlice10 s else s)

/-- Function `normalizeDateTime` of the source. -/
def normalizeDateTime : Option SqlDate → Option String
  | none => none
  | some (.vdate d) => some d.toISOString
  | some (.vstr s) => if s = "" then none else some s

/-- JavaScript `String.prototype.trim` (over the whitespace characters that
occur in this domain). -/
def trimString (s : String) : String := ⟨trimChars s.data⟩

/-- Function `toNullableString` of the source: `null`/`undefined` stay null,
otherwise trim and map the empty string to null. -/
def toNullableString : Option String → Option String
  | none => none
  | some s => let t := trimString s; if t = "" then none else some t

/-! ## Store rows and canonical entities -/

/-- A row of the Postgres `authors` table as selected by the resolvers
(`id` is `NOT NULL`; date columns may come back as `Date` or string). -/
structure AuthorRow where
  id : Nat
  firstname : String
  lastname : String
  birthdate : Option SqlDate := none
  deathdate : Option SqlDate := none
  favoritecolor : Option String := none
  bio : Option String := none
  nationality : Option String := none
  datecreated : Option SqlDate := none
deriving DecidableEq

/-- A row of the MySQL `books` table as selected by the resolvers. -/
structure BookRow where
  id : Nat
  author_id : Nat
  title : String
  synopsis : Option String := none
  isbn : Option String := none
  publicationdate : Option SqlDate := none
deriving DecidableEq

/-- A row of the SQLite `reviews` table. -/
structure ReviewRow where
  id : Nat
  book_id : Nat
  reviewername : String
  rating : Int
  comment : String
deriving DecidableEq

structure Author where
  id : String
  firstname : String
  lastname : String
  birthdate : Option String
  deathdate : Option String
  favoriteColor : Option String
  bio : Option String
  nationality : Option String
  dateCreated : Option String
deriving DecidableEq

structure Book where
  id : String
  authorId : String
  title : String
  synopsis : Option String
  isbn : Option String
  publicationDate : Option String
deriving DecidableEq

structure Review where
  id : String
  bookId : String
  reviewerName : String
  rating : Int
  comment : String
deriving DecidableEq

/-- Row mapper `mapAuthorRow` of the source.  The Postgres queries select the
`favoritecolor`/`datecreated` spellings, so the snake_case fallback chain of
the source collapses to those fields. -/
def mapAuthorRow (row : AuthorRow) : Author :=
  { id := natToString row.id
    firstname := row.firstname
    lastname := row.lastname
    birthdate := normalizeDate row.birthdate
    deathdate := normalizeDate row.deathdate
    favoriteColor := row.favoritecolor
    bio := row.bio
    nationality := row.nationality
    dateCreated := normalizeDateTime row.datecreated }

/-- Row mapper `mapBookRow` of the source (the MySQL queries select `author_id` and
`publicationdate`, so those arms of the fallback chains apply). -/
def mapBookRow (row : BookRow) : Book :=
  { id := natToString row.id
    authorId := natToString row.author_id
    title := row.title
    synopsis := row.synopsis
    isbn := row.isbn
    publicationDate := normalizeDate row.publicationdate }

/-- Row mapper `mapReviewRow` of the source (`rating` is numeric in the row, so the
`typeof` test takes the identity arm). -/
def mapReviewRow (row : ReviewRow) : Review :=
  { id := natToString row.id
    bookId := natToString row.book_id
    reviewerName := row.reviewername
    rating := row.rating
    comment := row.comment }

/-- The three stores: A = Postgres authors, B = MySQL books,
C = SQLite reviews. -/
structure Stores where
  authors : List AuthorRow
  books : List BookRow
  reviews : List ReviewRow
deriving DecidableEq

/-! ## DataLoader model

A DataLoader cache is a JS `Map` from the raw key that `load`/`clear`/`prime`
received to the cached value.  Map keys compare with SameValueZero, so a
string key and a numeric key are never the same entry; `JsVal` captures the
two key shapes this program uses. -/

inductive JsVal where
  | vstr : String → JsVal
  | vnum : JsNum → JsVal
deriving DecidableEq

/-- Conversion `Number(key)`, as the batch functions apply to each raw key. -/
def jsToNumber : JsVal → JsNum
  | .vstr s => jsNumber s
  | .vnum n => n

def cacheGet {α : Type} (c : List (JsVal × α)) (k : JsVal) : Option α :=
  (c.find? (fun p => p.1 = k)).map Prod.snd

/-- Operation `loader.clear(key)`: drop the entry for `key`. -/
def cacheClear {α : Type} (c : List (JsVal × α)) (k : JsVal) : List (JsVal × α) :=
  c.filter (fun p => ¬ (p.1 = k))

/-- Operation `loader.prime(key, value)`: insert only when no entry exists
(DataLoader's prime never overwrites). -/
def cachePrime {α : Type} (c : List (JsVal × α)) (k : JsVal) (v : α) : List (JsVal × α) :=
  match cacheGet c k with
  | some _ => c
  | none => c ++ [(k, v)]

/-! JS `Map` keyed by numbers, as built inside the batch functions. -/

def assocGet {α : Type} (m : List (JsNum × α)) (k : JsNum) : Option α :=
  (m.find? (fun p => p.1 = k)).map Prod.snd

/-- Operation `map.set(k, v)`: replace the entry if present, else append. -/
def assocSet {α : Type} (m : List (JsNum × α)) (k : JsNum) (v : α) : List (JsNum × α) :=
  if (assocGet m k).isSome then m.map (fun p => if p.1 = k then (k, v) else p)
  else m ++ [(k, v)]

/-- Construction `new Map(pairs)`: later pairs overwrite earlier ones. -/
def jsMapOfList {α : Type} (pairs : List (JsNum × α)) : List (JsNum × α) :=
  pairs.foldl (fun m p => assocSet m p.1 p.2) []

/-- One step of the row-grouping loops of the to-many batch functions:
append the mapped row to its key's list. -/
def groupStep {ρ β : Type} (key : ρ → JsNum) (f : ρ → β)
    (m : List (JsNum × List β)) (row : ρ) : List (JsNum × List β) :=
  assocSet m (key row) ((assocGet m (key row)).getD [] ++ [f row])

def groupMapOfRows {ρ β : Type} (key : ρ → JsNum) (f : ρ → β) (rows : List ρ) :
    List (JsNum × List β) :=
  rows.foldl (groupStep key f) []

/-! ## Store operations (trace events) -/

inductive StoreOp where
  | selectAuthorA (id : JsNum)
  | selectAuthorsBulkA (ids : List JsNum)
  | selectBooksByAuthorB (ids : List JsNum)
  | selectBooksBulkB (ids : List JsNum)
  | selectBookB (id : JsNum)
  | selectBooksByAuthorOneB (id : JsNum)
  | selectReviewsByBookC (ids : List JsNum)
  | selectReviewC (id : Nat)
  | alignAuthorSeqA
  | insertAuthorA
  | insertBookB
  | insertReviewC
  | deleteBooksB (ids : List Nat)
  | deleteReviewsC (ids : List Nat)
  | deleteAuthorA (id : Nat)
  | beginB
  | commitB
  | rollbackB
deriving DecidableEq

def StoreOp.isWriteA : StoreOp → Bool
  | .alignAuthorSeqA => true
  | .insertAuthorA => true
  | .deleteAuthorA _ => true
  | _ => false

def StoreOp.isWriteB : StoreOp → Bool
  | .insertBookB => true
  | .deleteBooksB _ => true
  | _ => false

def StoreOp.isWriteC : StoreOp → Bool
  | .insertReviewC => true
  | .deleteReviewsC _ => true
  | _ => false

def StoreOp.isWrite (o : StoreOp) : Bool := o.isWriteA || o.isWriteB || o.isWriteC

/-! ## The four per-request loaders (`createLoaders`) -/

structure Loaders where
  authorById : List (JsVal × Option Author)
  booksByAuthorId : List (JsVal × List Book)
  bookById : List (JsVal × Option Book)
  reviewsByBookId : List (JsVal × List Review)
deriving DecidableEq

def emptyLoaders : Loaders := ⟨[], [], [], []⟩

/-- Batch function of the `authorById` loader: map keys through `Number`,
one bulk `WHERE id = ANY($1)` select, build a `Map` keyed by `Number(row.id)`,
read the map back in key order with `?? null`. -/
def authorByIdBatch (st : Stores) (keys : List JsVal) :
    List (Option Author) × List StoreOp :=
  if keys = [] then ([], [])
  else
    let numericIds := keys.map jsToNumber
    let rows := st.authors.filter (fun r => numericIds.any (fun k => k = JsNum.num (r.id : ℚ)))
    let m := jsMapOfList (rows.map (fun r => (JsNum.num (r.id : ℚ), mapAuthorRow r)))
    (numericIds.map (fun k => assocGet m k), [.selectAuthorsBulkA numericIds])

/-- Batch function of the `booksByAuthorId` loader: bulk
`WHERE author_id IN (...)`, group rows per `Number(row.author_id)`,
read back in key order with `?? []`. -/
def booksByAuthorIdBatch (st : Stores) (keys : List JsVal) :
    List (List Book) × List StoreOp :=
  if keys = [] then ([], [])
  else
    let numericIds := keys.map jsToNumber
    let rows := st.books.filter (fun b => numericIds.any (fun k => k = JsNum.num (b.author_id : ℚ)))
    let m := groupMapOfRows (fun b => JsNum.num (b.author_id : ℚ)) mapBookRow rows
    (numericIds.map (fun k => (assocGet m k).getD []), [.selectBooksByAuthorB numericIds])

/-- Batch function of the `bookById` loader. -/
def bookByIdBatch (st : Stores) (keys : List JsVal) :
    List (Option Book) × List StoreOp :=
  if keys = [] then ([], [])
  else
    let numericIds := keys.map jsToNumber
    let rows := st.books.filter (fun b => numericIds.any (fun k => k = JsNum.num (b.id : ℚ)))
    let m := jsMapOfList (rows.map (fun b => (JsNum.num (b.id : ℚ), mapBookRow b)))
    (numericIds.map (fun k => assocGet m k), [.selectBooksBulkB numericIds])

/-- Batch function of the `reviewsByBookId` loader. -/
def reviewsByBookIdBatch (st : Stores) (keys : List JsVal) :
    List (List Review) × List StoreOp :=
  if keys = [] then ([], [])
  else
    let numericIds := keys.map jsToNumber
    let rows := st.reviews.filter (fun r => numericIds.any (fun k => k = JsNum.num (r.book_id : ℚ)))
    let m := groupMapOfRows (fun r => JsNum.num (r.book_id : ℚ)) mapReviewRow rows
    (numericIds.map (fun k => (assocGet m k).getD []), [.selectReviewsByBookC numericIds])

/-! `loader.load(key)` for a single key: serve from the cache, otherwise run
the batch function on the singleton batch and cache the result. -/

def loadAuthorById (st : Stores) (ld : Loaders) (k : JsVal) :
    Option Author × Loaders × List StoreOp :=
  match cacheGet ld.authorById k with
  | some v => (v, ld, [])
  | none =>
    let res := authorByIdBatch st [k]
    let v := res.1.getD 0 none
    (v, { ld with authorById := cachePrime ld.authorById k v }, res.2)

def loadBooksByAuthorId (st : Stores) (ld : Loaders) (k : JsVal) :
    List Book × Loaders × List StoreOp :=
  match cacheGet ld.booksByAuthorId k with
  | some v => (v, ld, [])
  | none =>
    let res := booksByAuthorIdBatch st [k]
    let v := res.1.getD 0 []
    (v, { ld with booksByAuthorId := cachePrime ld.booksByAuthorId k v }, res.2)

def loadBookById (st : Stores) (ld : Loaders) (k : JsVal) :
    Option Book × Loaders × List StoreOp :=
  match cacheGet ld.bookById k with
  | some v => (v, ld, [])
  | none =>
    let res := bookByIdBatch st [k]
    let v := res.1.getD 0 none
    (v, { ld with bookById := cachePrime ld.bookById k v }, res.2)

def loadReviewsByBookId (st : Stores) (ld : Loaders) (k : JsVal) :
    List Review × Loaders × List StoreOp :=
  match cacheGet ld.reviewsByBookId k with
  | some v => (v, ld, [])
  | none =>
    let res := reviewsByBookIdBatch st [k]
    let v := res.1.getD 0 []
    (v, { ld with reviewsByBookId := cachePrime ld.reviewsByBookId k v }, res.2)

/-! Field resolvers: each loads through a loader with the parent entity's
*string-typed* canonical field as the key. -/

/-- The `Author.books` resolver. -/
def authorBooksResolve (st : Stores) (ld : Loaders) (a : Author) :
    List Book × Loaders × List StoreOp :=
  loadBooksByAuthorId st ld (.vstr a.id)

/-- The `Book.author` resolver. -/
def bookAuthorResolve (st : Stores) (ld : Loaders) (b : Book) :
    Option Author × Loaders × List StoreOp :=
  loadAuthorById st ld (.vstr b.authorId)

/-- The `Book.reviews` resolver. -/
def bookReviewsResolve (st : Stores) (ld : Loaders) (b : Book) :
    List Review × Loaders × List StoreOp :=
  loadReviewsByBookId st ld (.vstr b.id)

/-- The `Review.book` resolver. -/
def reviewBookResolve (st : Stores) (ld : Loaders) (r : Review) :
    Option Book × Loaders × List StoreOp :=
  loadBookById st ld (.vstr r.bookId)

/-- Resolver `Query.author`: `Number(id)` with no validation, then a store-A select
with that value as parameter; the first row (if any) is mapped. -/
def queryAuthorRun (st : Stores) (id : String) : Option Author × List StoreOp :=
  let numericId := jsNumber id
  let rows := st.authors.filter (fun r => JsNum.num (r.id : ℚ) = numericId)
  (rows.head?.map mapAuthorRow, [.selectAuthorA numericId])

/-! ## Mutation orchestrator -/

structure MutationOut (α : Type) where
  result : Except String α
  trace : List StoreOp
  stores : Stores
  loaders : Loaders

def maxAuthorId (st : Stores) : Nat := (st.authors.map AuthorRow.id).foldr max 0

def maxBookId (st : Stores) : Nat := (st.books.map BookRow.id).foldr max 0

def maxReviewId (st : Stores) : Nat := (st.reviews.map ReviewRow.id).foldr max 0

/-- Resolver `Mutation.addReview`.  The SQLite insert assigns `lastID` as the next
rowid; the follow-up select by `lastID` returns the row just inserted. -/
def addReviewRun (st : Stores) (ld : Loaders) (bookId : String)
    (reviewerName : String) (rating : Int) (comment : String) : MutationOut Review :=
  let normalizedBookId := jsNumber bookId
  if normalizedBookId.isNaN then ⟨.error "Invalid bookId", [], st, ld⟩
  else if rating < 1 ∨ 5 < rating then ⟨.error "Rating must be between 1 and 5", [], st, ld⟩
  else
    let loaded := loadBookById st ld (.vnum normalizedBookId)
    match loaded.1 with
    | none => ⟨.error ("Book " ++ bookId ++ " not found"), loaded.2.2, st, loaded.2.1⟩
    | some _ =>
      let newId := maxReviewId st + 1
      let newRow : ReviewRow :=
        ⟨newId, normalizedBookId.toNatVal, reviewerName, rating, comment⟩
      let st1 := { st with reviews := st.reviews ++ [newRow] }
      let ld1 := loaded.2.1
      let ld2 := { ld1 with
        reviewsByBookId := cacheClear ld1.reviewsByBookId (.vnum normalizedBookId) }
      ⟨.ok (mapReviewRow newRow), loaded.2.2 ++ [.insertReviewC, .selectReviewC newId], st1, ld2⟩

structure AddAuthorInput where
  firstname : String
  lastname : String
  birthdate : Option String := none
  deathdate : Option String := none
  favoriteColor : Option String := none
  bio : Option String := none
  nationality : Option String := none
  dateCreated : Option String := none

/-- Resolver `Mutation.addAuthor`: `today` models `new Date()`; the serial sequence is
realigned to `MAX(id)` first, so the insert assigns `maxAuthorId + 1`.  The
`RETURNING` row carries the inserted values (dates surfaced as strings). -/
def addAuthorRun (st : Stores) (ld : Loaders) (input : AddAuthorInput) (today : JsDate) :
    MutationOut Author :=
  match toNullableString (some input.firstname) with
  | none => ⟨.error "firstname is required", [], st, ld⟩
  | some firstname =>
    match toNullableString (some input.lastname) with
    | none => ⟨.error "lastname is required", [], st, ld⟩
    | some lastname =>
      let birthdate := toNullableString input.birthdate
      let deathdate := toNullableString input.deathdate
      let favoriteColor := toNullableString input.favoriteColor
      let bio := toNullableString input.bio
      let nationality := toNullableString input.nationality
      let dateCreated :=
        (toNullableString input.dateCreated).getD (strSlice10 today.toISOString)
      let newId := maxAuthorId st + 1
      let newRow : AuthorRow :=
        ⟨newId, firstname, lastname, birthdate.map SqlDate.vstr, deathdate.map SqlDate.vstr,
          favoriteColor, bio, nationality, some (SqlDate.vstr dateCreated)⟩
      let st1 := { st with authors := st.authors ++ [newRow] }
      let author := mapAuthorRow newRow
      let ld1 := { ld with
        authorById :=
          cachePrime (cacheClear ld.authorById (.vstr author.id)) (.vstr author.id) (some author)
        booksByAuthorId :=
          cachePrime (cacheClear ld.booksByAuthorId (.vstr author.id)) (.vstr author.id) [] }
      ⟨.ok author, [.alignAuthorSeqA, .insertAuthorA], st1, ld1⟩

structure AddBookInput where
  authorId : String
  title : String
  synopsis : Option String := none
  isbn : Option String := none
  publicationDate : Option String := none
  id : Option String := none

/-- Insert step of `addBook` (after all validation and existence checks) and
the follow-up select of the created row, cache maintenance included. -/
def finishInsertBook (st : Stores) (ld : Loaders) (newId aId : Nat) (title : String)
    (synopsis isbn publicationDate : Option String) (t : List StoreOp) : MutationOut Book :=
  let newRow : BookRow := ⟨newId, aId, title, synopsis, isbn, publicationDate.map SqlDate.vstr⟩
  let st1 := { st with books := st.books ++ [newRow] }
  let book := mapBookRow newRow
  let ld1 := { ld with
    bookById :=
      cachePrime (cacheClear ld.bookById (.vstr book.id)) (.vstr book.id) (some book)
    booksByAuthorId := cacheClear ld.booksByAuthorId (.vstr book.authorId) }
  ⟨.ok book, t ++ [.insertBookB, .selectBookB (.num (newId : ℚ))], st1, ld1⟩

/-- Continuation of `addBook` after the id validations: title check, author existence check
against store A, duplicate check for an explicit id, then the insert. -/
def addBookValidated (st : Stores) (ld : Loaders) (input : AddBookInput)
    (numericAuthorId : JsNum) (desiredBookId : Option Nat) : MutationOut Book :=
  match toNullableString (some input.title) with
  | none => ⟨.error "title is required", [], st, ld⟩
  | some title =>
    let synopsis := toNullableString input.synopsis
    let isbn := toNullableString input.isbn
    let publicationDate := toNullableString input.publicationDate
    let aId := numericAuthorId.toNatVal
    let t0 := [StoreOp.selectAuthorA numericAuthorId]
    if ¬ (st.authors.any (fun r => r.id = aId) = true) then
      ⟨.error ("Author " ++ input.authorId ++ " not found"), t0, st, ld⟩
    else
      match desiredBookId with
      | some d =>
        let t1 := t0 ++ [.selectBookB (.num (d : ℚ))]
        if st.books.any (fun b => b.id = d) then
          ⟨.error ("Book " ++ input.id.getD "" ++ " already exists"), t1, st, ld⟩
        else finishInsertBook st ld d aId title synopsis isbn publicationDate t1
      | none => finishInsertBook st ld (maxBookId st + 1) aId title synopsis isbn publicationDate t0

/-- Resolver `Mutation.addBook`: validate `authorId`, validate the explicit id when
present, then `addBookValidated`. -/
def addBookRun (st : Stores) (ld : Loaders) (input : AddBookInput) : MutationOut Book :=
  let numericAuthorId := jsNumber input.authorId
  if ¬ (isPositiveIntegerNum numericAuthorId = true) then
    ⟨.error "authorId must be a positive integer", [], st, ld⟩
  else
    match input.id with
    | some idStr =>
      let d := jsNumber idStr
      if ¬ (isPositiveIntegerNum d = true) then
        ⟨.error "Book id must be a positive integer when provided", [], st, ld⟩
      else addBookValidated st ld input numericAuthorId (some d.toNatVal)
    | none => addBookValidated st ld input numericAuthorId none

/-- Which step of `deleteAuthor`'s try block a fault is injected at. -/
inductive DelFail where
  | atDeleteBooks
  | atDeleteReviews
  | atDeleteAuthor
  | atCommit
deriving DecidableEq

/-- Cache maintenance of `deleteAuthor` (source lines 641-652): clears use
the *numeric* `authorId` / `bookIds` values as keys. -/
def clearLoadersAfterDelete (ld : Loaders) (authorId : Nat) (bookIds : List Nat) : Loaders :=
  { authorById := cacheClear ld.authorById (.vnum (.num (authorId : ℚ)))
    booksByAuthorId := cacheClear ld.booksByAuthorId (.vnum (.num (authorId : ℚ)))
    bookById := bookIds.foldl (fun c b => cacheClear c (.vnum (.num (b : ℚ)))) ld.bookById
    reviewsByBookId :=
      bookIds.foldl (fun c b => cacheClear c (.vnum (.num (b : ℚ)))) ld.reviewsByBookId }

/-- The Book ids enumerated by `deleteAuthor` before its transaction:
`SELECT id FROM books WHERE author_id = ?`, each id through `Number`. -/
def delBookIds (st : Stores) (aid : Nat) : List Nat :=
  (st.books.filter (fun b => b.author_id = aid)).map BookRow.id

/-- Resolver `Mutation.deleteAuthor`.  A fault injected at a step makes that store call
raise before taking effect; the catch block rolls the store-B transaction
back (store-C deletions and an already-performed store-A deletion are outside
that transaction and keep their effect) and rethrows. -/
def deleteAuthorRun (st : Stores) (ld : Loaders) (id : String) (failAt : Option DelFail) :
    MutationOut Bool :=
  let n := jsNumber id
  if ¬ (isPositiveIntegerNum n = true) then ⟨.error "Invalid author id", [], st, ld⟩
  else
    let authorId := n.toNatVal
    let t0 := [StoreOp.selectAuthorA n]
    if ¬ (st.authors.any (fun r => r.id = authorId) = true) then ⟨.ok false, t0, st, ld⟩
    else
      let bookIds := delBookIds st authorId
      let t1 := t0 ++ [.selectBooksByAuthorOneB n, .beginB]
      if failAt = some .atDeleteBooks ∧ bookIds ≠ [] then
        ⟨.error "store B delete failed", t1 ++ [.rollbackB], st, ld⟩
      else
        let t2 := t1 ++ (if bookIds = [] then [] else [.deleteBooksB bookIds])
        if failAt = some .atDeleteReviews ∧ bookIds ≠ [] then
          ⟨.error "store C delete failed", t2 ++ [.rollbackB], st, ld⟩
        else
          let t3 := t2 ++ (if bookIds = [] then [] else [.deleteReviewsC bookIds])
          let reviewsAfter :=
            if bookIds = [] then st.reviews
            else st.reviews.filter (fun r => ¬ (bookIds.any (fun b => b = r.book_id) = true))
          if failAt = some .atDeleteAuthor then
            ⟨.error "store A delete failed", t3 ++ [.rollbackB],
              { st with reviews := reviewsAfter }, ld⟩
          else
            let t4 := t3 ++ [.deleteAuthorA authorId]
            let authorsAfter := st.authors.filter (fun r => ¬ (r.id = authorId))
            if failAt = some .atCommit then
              ⟨.error "store B commit failed", t4 ++ [.rollbackB],
                { st with authors := authorsAfter, reviews := reviewsAfter }, ld⟩
            else
              let booksAfter := st.books.filter (fun b => ¬ (b.author_id = authorId))
              ⟨.ok true, t4 ++ [.commitB], ⟨authorsAfter, booksAfter, reviewsAfter⟩,
                clearLoadersAfterDelete ld authorId bookIds⟩

/-! ## Lemmas: decimal printing and parsing -/

theorem natDigitsAux_irrel : ∀ (f1 f2 n : Nat), n < f1 → n < f2 →
    natDigitsAux f1 n = natDigitsAux f2 n := by
  intro f1
  induction f1 with
  | zero => intro f2 n h1 _; omega
  | succ f ih =>
    intro f2 n h1 h2
    cases f2 with
    | zero => omega
    | succ g =>
      simp only [natDigitsAux]
      by_cases h : n < 10
      · simp [h]
      · simp only [if_neg h]
        rw [ih g (n / 10) (by omega) (by omega)]

theorem natDigits_unfold (n : Nat) :
    natDigits n = if n < 10 then [digitChar n] else natDigits (n / 10) ++ [digitChar (n % 10)] := by
  show natDigitsAux (n + 1) n = _
  simp only [natDigitsAux]
  by_cases h : n < 10
  · simp [h]
  · simp only [if_neg h]
    rw [natDigitsAux_irrel n (n / 10 + 1) (n / 10) (by omega) (by omega)]
    rfl

theorem digit_facts : ∀ n, n < 10 → isDigitChar (digitChar n) = true ∧ digitVal (digitChar n) = n := by
  decide

theorem natDigits_digits (n : Nat) : ∀ c ∈ natDigits n, isDigitChar c = true := by
  induction n using Nat.strong_induction_on with
  | _ n ih =>
    rw [natDigits_unfold n]
    by_cases h : n < 10
    · simp only [if_pos h, List.mem_singleton]
      intro c hc; subst hc; exact (digit_facts n h).1
    · simp only [if_neg h]
      intro c hc
      rcases List.mem_append.mp hc with h1 | h2
      · exact ih (n / 10) (Nat.div_lt_self (by omega) (by omega)) c h1
      · rw [List.mem_singleton] at h2; subst h2
        exact (digit_facts (n % 10) (Nat.mod_lt n (by omega))).1

theorem natDigits_ne_nil (n : Nat) : natDigits n ≠ [] := by
  rw [natDigits_unfold n]
  by_cases h : n < 10
  · simp [h]
  · rw [if_neg h]
    intro hx
    have := congrArg List.length hx
    simp at this

theorem parseDigitsAux_append (l1 l2 : List Char) (acc : Nat) :
    parseDigitsAux (l1 ++ l2) acc =
      match parseDigitsAux l1 acc with
      | some a => parseDigitsAux l2 a
      | none => none := by
  induction l1 generalizing acc with
  | nil => rfl
  | cons c cs ih =>
    show parseDigitsAux (c :: (cs ++ l2)) acc = _
    by_cases h : isDigitChar c = true
    · simp only [parseDigitsAux, h, if_true]
      exact ih _
    · simp only [parseDigitsAux, h]
      simp [h]

theorem parseDigitsAux_natDigits (n : Nat) : ∀ acc : Nat,
    parseDigitsAux (natDigits n) acc = some (acc * 10 ^ (natDigits n).length + n) := by
  induction n using Nat.strong_induction_on with
  | _ n ih =>
    intro acc
    rw [natDigits_unfold n]
    by_cases h : n < 10
    · rw [if_pos h]
      have hd := digit_facts n h
      simp only [parseDigitsAux, hd.1, hd.2, if_true, List.length_singleton, pow_one,
        Option.some.injEq]
      omega
    · rw [if_neg h]
      rw [parseDigitsAux_append]
      rw [ih (n / 10) (Nat.div_lt_self (by omega) (by omega)) acc]
      have hm := digit_facts (n % 10) (Nat.mod_lt n (by omega))
      simp only [parseDigitsAux, hm.1, hm.2, if_true, List.length_append,
        List.length_singleton, Option.some.injEq]
      rw [pow_succ, ← mul_assoc]
      generalize acc * 10 ^ (natDigits (n / 10)).length = A
      omega

theorem parseDigits0_natDigits (n : Nat) : parseDigits0 (natDigits n) = some n := by
  unfold parseDigits0
  rw [parseDigitsAux_natDigits n 0]
  simp

theorem dropWhile_all_neg {p : Char → Bool} (l : List Char) (h : ∀ c ∈ l, p c = false) :
    l.dropWhile p = l := by
  cases l with
  | nil => rfl
  | cons c cs =>
    rw [List.dropWhile_cons]
    simp [h c (List.mem_cons_self c cs)]

theorem isWhitespaceChar_of_digit (c : Char) (h : isDigitChar c = true) :
    isWhitespaceChar c = false := by
  simp only [isWhitespaceChar, Bool.or_eq_false_iff, decide_eq_false_iff_not]
  refine ⟨⟨⟨?_, ?_⟩, ?_⟩, ?_⟩ <;>
    · intro hc; subst hc; exact absurd h (by decide)

theorem trimChars_digits (l : List Char) (h : ∀ c ∈ l, isDigitChar c = true) :
    trimChars l = l := by
  unfold trimChars
  have h1 : ∀ c ∈ l, isWhitespaceChar c = false :=
    fun c hc => isWhitespaceChar_of_digit c (h c hc)
  rw [dropWhile_all_neg l h1]
  rw [dropWhile_all_neg l.reverse (fun c hc => h1 c (List.mem_reverse.mp hc))]
  exact List.reverse_reverse l

theorem splitAtDot_no_dot (l : List Char) (h : ∀ c ∈ l, ¬ c = '.') : splitAtDot l = (l, []) := by
  induction l with
  | nil => rfl
  | cons c cs ih =>
    unfold splitAtDot
    rw [if_neg (h c (List.mem_cons_self c cs))]
    simp [ih (fun x hx => h x (List.mem_cons_of_mem c hx))]

theorem digit_ne_dot (c : Char) (h : isDigitChar c = true) : ¬ c = '.' := by
  intro hc; subst hc; exact absurd h (by decide)

/-- String-to-number normalization is exact on canonically printed integers:
`Number(String(n)) = n`. -/
theorem jsNumber_natToString (n : Nat) : jsNumber (natToString n) = JsNum.num (n : ℚ) := by
  have hdig := natDigits_digits n
  have hne := natDigits_ne_nil n
  have hdata : (natToString n).data = natDigits n := rfl
  unfold jsNumber
  rw [hdata, trimChars_digits _ hdig]
  obtain ⟨c, cs, hcc⟩ : ∃ c cs, natDigits n = c :: cs := by
    cases hx : natDigits n with
    | nil => exact absurd hx hne
    | cons a as => exact ⟨a, as, rfl⟩
  have hc : isDigitChar c = true := hdig c (by rw [hcc]; exact List.mem_cons_self c cs)
  have hparse : parseDecimalChars (natDigits n) = some ((n : ℚ)) := by
    unfold parseDecimalChars
    rw [splitAtDot_no_dot _ (fun x hx => digit_ne_dot x (hdig x hx))]
    simp [parseDigits0_natDigits n]
  rw [hcc] at hparse ⊢
  rw [if_neg (by simp), if_neg ?hminus, if_neg ?hplus]
  case hminus =>
    simp only [List.head?_cons, Option.some.injEq]
    intro h2; subst h2; exact absurd hc (by decide)
  case hplus =>
    simp only [List.head?_cons, Option.some.injEq]
    intro h2; subst h2; exact absurd hc (by decide)
  rw [hparse]
  rfl

/-! ## Lemmas: JS `Map` association lists -/

theorem assocGet_cons {α : Type} (p : JsNum × α) (m : List (JsNum × α)) (k : JsNum) :
    assocGet (p :: m) k = if p.1 = k then some p.2 else assocGet m k := by
  by_cases h : p.1 = k
  · rw [if_pos h]
    unfold assocGet
    rw [List.find?_cons_of_pos _ (by simp [h])]
    rfl
  · rw [if_neg h]
    unfold assocGet
    rw [List.find?_cons_of_neg _ (by simp [h])]

theorem find?_eq_head_filter {α : Type} (p : α → Bool) (l : List α) :
    l.find? p = (l.filter p).head? := by
  induction l with
  | nil => rfl
  | cons a l ih =>
    by_cases h : p a = true
    · rw [List.find?_cons_of_pos _ h, List.filter_cons_of_pos h]
      rfl
    · rw [List.find?_cons_of_neg _ h, List.filter_cons_of_neg (by simpa using h), ih]

theorem reverse_find?_eq_getLast_filter {α : Type} (p : α → Bool) (l : List α) :
    l.reverse.find? p = (l.filter p).getLast? := by
  rw [find?_eq_head_filter, List.filter_reverse, List.head?_reverse]

theorem assocGet_map_replace_self {α : Type} (m : List (JsNum × α)) (k : JsNum) (v : α)
    (h : (assocGet m k).isSome = true) :
    assocGet (m.map (fun p => if p.1 = k then (k, v) else p)) k = some v := by
  induction m with
  | nil => simp [assocGet] at h
  | cons p m ih =>
    rw [assocGet_cons] at h
    rw [List.map_cons]
    by_cases hp : p.1 = k
    · rw [if_pos hp, assocGet_cons]
      simp
    · rw [if_neg hp, assocGet_cons, if_neg hp]
      rw [if_neg hp] at h
      exact ih h

theorem assocGet_map_replace_ne {α : Type} (m : List (JsNum × α)) (k kp : JsNum) (v : α)
    (hne : ¬ kp = k) :
    assocGet (m.map (fun p => if p.1 = kp then (kp, v) else p)) k = assocGet m k := by
  induction m with
  | nil => rfl
  | cons p m ih =>
    rw [List.map_cons, assocGet_cons, assocGet_cons]
    by_cases hp : p.1 = kp
    · rw [if_pos hp, if_neg hne, if_neg (by rw [hp]; exact hne), ih]
    · rw [if_neg hp]
      by_cases hk : p.1 = k
      · rw [if_pos hk, if_pos hk]
      · rw [if_neg hk, if_neg hk, ih]

theorem assocGet_append_single {α : Type} (m : List (JsNum × α)) (k kp : JsNum) (v : α) :
    assocGet (m ++ [(kp, v)]) k =
      ((assocGet m k).or (if kp = k then some v else none)) := by
  unfold assocGet
  rw [List.find?_append]
  by_cases hp : kp = k
  · rw [if_pos hp]
    rw [List.find?_cons_of_pos _ (by simp [hp])]
    cases List.find? (fun p => p.1 = k) m <;> rfl
  · rw [if_neg hp]
    rw [List.find?_cons_of_neg _ (by simp [hp])]
    cases List.find? (fun p => p.1 = k) m <;> rfl

theorem assocGet_assocSet_self {α : Type} (m : List (JsNum × α)) (k : JsNum) (v : α) :
    assocGet (assocSet m k v) k = some v := by
  unfold assocSet
  by_cases h : (assocGet m k).isSome = true
  · rw [if_pos h]
    exact assocGet_map_replace_self m k v h
  · rw [if_neg h]
    rw [assocGet_append_single, Option.not_isSome_iff_eq_none.mp h, if_pos rfl]
    rfl

theorem assocGet_assocSet_ne {α : Type} (m : List (JsNum × α)) (k kp : JsNum) (v : α)
    (hne : ¬ kp = k) :
    assocGet (assocSet m kp v) k = assocGet m k := by
  unfold assocSet
  by_cases h : (assocGet m kp).isSome = true
  · rw [if_pos h]
    exact assocGet_map_replace_ne m k kp v hne
  · rw [if_neg h]
    rw [assocGet_append_single, if_neg hne, Option.or_none]

theorem assocGet_foldl_set {α : Type} (pairs : List (JsNum × α)) (m : List (JsNum × α)) (k : JsNum) :
    assocGet (pairs.foldl (fun m p => assocSet m p.1 p.2) m) k =
      match pairs.reverse.find? (fun p => p.1 = k) with
      | some p => some p.2
      | none => assocGet m k := by
  induction pairs generalizing m with
  | nil => rfl
  | cons q rest ih =>
    rw [List.foldl_cons, ih, List.reverse_cons, List.find?_append]
    cases hf : List.find? (fun p => p.1 = k) rest.reverse with
    | some p => rw [Option.or_some]
    | none =>
      rw [Option.none_or]
      by_cases hq : q.1 = k
      · rw [List.find?_cons_of_pos _ (by simp [hq])]
        show assocGet (assocSet m q.1 q.2) k = some q.2
        rw [hq, assocGet_assocSet_self]
      · rw [List.find?_cons_of_neg _ (by simp [hq])]
        show assocGet (assocSet m q.1 q.2) k = assocGet m k
        exact assocGet_assocSet_ne m k q.1 q.2 hq

/-- The per-key content of a JS `Map` built from a pair list: the value of
the *last* pair carrying the key. -/
theorem jsMapOfList_get {α : Type} (pairs : List (JsNum × α)) (k : JsNum) :
    assocGet (jsMapOfList pairs) k =
      ((pairs.filter (fun p => p.1 = k)).getLast?).map Prod.snd := by
  unfold jsMapOfList
  rw [assocGet_foldl_set, ← reverse_find?_eq_getLast_filter]
  cases List.find? (fun p => p.1 = k) pairs.reverse <;> rfl

/-- The to-one batch lookup: mapping rows to `(key, value)` pairs and reading
the `Map` back at `k` returns the mapped last row whose key is `k`. -/
theorem toOneLookup {ρ γ : Type} (rows : List ρ) (key : ρ → JsNum) (f : ρ → γ) (k : JsNum) :
    assocGet (jsMapOfList (rows.map (fun r => (key r, f r)))) k =
      ((rows.filter (fun r => key r = k)).getLast?).map f := by
  rw [jsMapOfList_get]
  rw [List.filter_map (p := fun p => p.1 = k) (fun r => (key r, f r)) rows]
  rw [List.getLast?_map, Option.map_map]
  rfl

def combineGroup {β : Type} : Option (List β) → List β → Option (List β)
  | some pre, l => some (pre ++ l)
  | none, [] => none
  | none, l => some l

theorem assocGet_foldl_group {ρ β : Type} (key : ρ → JsNum) (f : ρ → β)
    (rows : List ρ) (m : List (JsNum × List β)) (k : JsNum) :
    assocGet (rows.foldl (groupStep key f) m) k =
      combineGroup (assocGet m k) ((rows.filter (fun r => key r = k)).map f) := by
  induction rows generalizing m with
  | nil =>
    cases h : assocGet m k with
    | none => simp [combineGroup, h]
    | some pre => simp [combineGroup, h]
  | cons r rest ih =>
    rw [List.foldl_cons, ih]
    by_cases hr : key r = k
    · rw [List.filter_cons_of_pos (by simp [hr]), List.map_cons]
      show combineGroup (assocGet (assocSet m (key r) _) k) _ = _
      rw [hr, assocGet_assocSet_self]
      cases h : assocGet m k with
      | none => simp [combineGroup]
      | some pre => simp [combineGroup]
    · rw [List.filter_cons_of_neg (by simp [hr])]
      show combineGroup (assocGet (assocSet m (key r) _) k) _ = _
      rw [assocGet_assocSet_ne m k (key r) _ hr]

/-- The to-many batch lookup: the grouping loop followed by `?? []` returns
exactly the mapped rows carrying key `k`, in row order. -/
theorem toManyLookup {ρ β : Type} (key : ρ → JsNum) (f : ρ → β) (rows : List ρ) (k : JsNum) :
    (assocGet (groupMapOfRows key f rows) k).getD [] =
      (rows.filter (fun r => key r = k)).map f := by
  unfold groupMapOfRows
  rw [assocGet_foldl_group]
  show (combineGroup none _).getD [] = _
  cases h : (rows.filter (fun r => key r = k)).map f with
  | nil => rfl
  | cons b l => rfl

/-- Filtering a bulk-selected row set (`WHERE key IN ids`) down to one key
`k ∈ ids` is the same as filtering the whole table at `k`. -/
theorem filter_collapse {ρ : Type} (l : List ρ) (key : ρ → JsNum) (ids : List JsNum) (k : JsNum)
    (hk : k ∈ ids) :
    (l.filter (fun r => ids.any (fun kk => kk = key r))).filter (fun r => key r = k) =
      l.filter (fun r => key r = k) := by
  rw [List.filter_filter]
  apply List.filter_congr
  intro x _
  by_cases hx : key x = k
  · have hany : ids.any (fun kk => kk = key x) = true :=
      List.any_eq_true.mpr ⟨k, hk, by simp [hx]⟩
    simp [hx, hany, hk]
  · simp [hx]

/-! ## Lemmas: loader caches -/

theorem cacheGet_cons {α : Type} (p : JsVal × α) (c : List (JsVal × α)) (k : JsVal) :
    cacheGet (p :: c) k = if p.1 = k then some p.2 else cacheGet c k := by
  by_cases h : p.1 = k
  · rw [if_pos h]
    unfold cacheGet
    rw [List.find?_cons_of_pos _ (by simp [h])]
    rfl
  · rw [if_neg h]
    unfold cacheGet
    rw [List.find?_cons_of_neg _ (by simp [h])]

theorem cacheGet_clear_self {α : Type} (c : List (JsVal × α)) (k : JsVal) :
    cacheGet (cacheClear c k) k = none := by
  induction c with
  | nil => rfl
  | cons p c ih =>
    unfold cacheClear
    by_cases hp : p.1 = k
    · rw [List.filter_cons_of_neg (by simp [hp])]
      exact ih
    · rw [List.filter_cons_of_pos (by simp [hp]), cacheGet_cons, if_neg hp]
      exact ih

theorem cacheGet_prime_of_none {α : Type} (c : List (JsVal × α)) (k : JsVal) (v : α)
    (h : cacheGet c k = none) : cacheGet (cachePrime c k v) k = some v := by
  unfold cachePrime
  rw [h]
  show cacheGet (c ++ [(k, v)]) k = some v
  unfold cacheGet
  rw [List.find?_append]
  have hf : List.find? (fun p => p.1 = k) c = none := by
    cases hx : List.find? (fun p => p.1 = k) c with
    | none => rfl
    | some p => unfold cacheGet at h; rw [hx] at h; simp at h
  rw [hf, Option.none_or, List.find?_cons_of_pos _ (by simp)]
  rfl

/-- Clearing then priming (`clear(k).prime(k, v)`) leaves the cache holding `v` at `k`. -/
theorem cacheGet_clear_prime {α : Type} (c : List (JsVal × α)) (k : JsVal) (v : α) :
    cacheGet (cachePrime (cacheClear c k) k v) k = some v :=
  cacheGet_prime_of_none _ k v (cacheGet_clear_self c k)

/-! ## Batch-function lookup bridges -/

/-- Reading the to-one batch `Map` at a key that was part of the bulk select
is a lookup against the whole table. -/
theorem batchToOne_get {ρ γ : Type} (table : List ρ) (key : ρ → JsNum) (f : ρ → γ)
    (ids : List JsNum) (k : JsNum) (hk : k ∈ ids) :
    assocGet (jsMapOfList
        ((table.filter (fun r => ids.any (fun kk => kk = key r))).map (fun r => (key r, f r)))) k =
      ((table.filter (fun r => key r = k)).getLast?).map f := by
  rw [toOneLookup, filter_collapse table key ids k hk]

/-- Reading the to-many grouped `Map` at a key that was part of the bulk
select collects the whole table's rows for that key, in table order. -/
theorem batchToMany_get {ρ β : Type} (table : List ρ) (key : ρ → JsNum) (f : ρ → β)
    (ids : List JsNum) (k : JsNum) (hk : k ∈ ids) :
    (assocGet (groupMapOfRows key f
        (table.filter (fun r => ids.any (fun kk => kk = key r)))) k).getD [] =
      (table.filter (fun r => key r = k)).map f := by
  rw [toManyLookup, filter_collapse table key ids k hk]

/-! ## Shared concrete fixtures -/

def adaRow : AuthorRow := ⟨1, "Ada", "Lovelace", none, none, none, none, none, none⟩

def notesRow : BookRow := ⟨1, 1, "Notes", none, none, none⟩

def demoStores : Stores := ⟨[adaRow], [notesRow], []⟩

/-! ## Length lemmas for the date normalizer -/

theorem padDigits_length (w n : Nat) : w ≤ (padDigits w n).length := by
  unfold padDigits
  rw [List.length_append, List.length_replicate]
  omega

theorem toISOString_data (d : JsDate) :
    d.toISOString.data = padDigits 4 d.year ++ '-' :: padDigits 2 d.month ++ '-' ::
      padDigits 2 d.day ++ 'T' :: padDigits 2 d.hour ++ ':' :: padDigits 2 d.minute ++ ':' ::
      padDigits 2 d.second ++ '.' :: padDigits 3 d.ms ++ ['Z'] := rfl

theorem toISOString_length (d : JsDate) : 10 ≤ d.toISOString.data.length := by
  have h4 := padDigits_length 4 d.year
  have h2a := padDigits_length 2 d.month
  have h2b := padDigits_length 2 d.day
  rw [toISOString_data]
  simp only [List.length_append, List.length_cons]
  omega

theorem strSlice10_length_of_ge (s : String) (h : 10 ≤ s.data.length) :
    (strSlice10 s).data.length = 10 := by
  show (s.data.take 10).length = 10
  rw [List.length_take]
  omega

/-! ## Claim theorems -/

/-- C9 counterexample: the row-mapper date normalization maps the non-empty
string value `"2020-1-1"` to itself, an 8-character string — refuting, at this
input, the claim that every non-empty date value normalizes to a fixed
10-character textual form. -/
theorem normalizeDate_short_string_not_ten :
    normalizeDate (some (.vstr "2020-1-1")) = some "2020-1-1" ∧
    ¬ ("2020-1-1" : String).data.length = 10 := by
  constructor
  · rfl
  · decide

/-- C9 (amended): `normalizeDate` yields the 10-character ISO-date prefix for
every native `Date` value and for every string value of length at least 10;
a non-empty string shorter than 10 characters is returned unchanged (and is
therefore shorter than 10 characters). -/
theorem normalizeDate_amended :
    (∀ d : JsDate, normalizeDate (some (.vdate d)) = some (strSlice10 d.toISOString) ∧
        (strSlice10 d.toISOString).data.length = 10) ∧
    (∀ s : String, ¬ s = "" → 10 ≤ s.data.length →
        normalizeDate (some (.vstr s)) = some (strSlice10 s) ∧
        (strSlice10 s).data.length = 10) ∧
    (∀ s : String, ¬ s = "" → s.data.length < 10 →
        normalizeDate (some (.vstr s)) = some s) := by
  refine ⟨fun d => ⟨rfl, strSlice10_length_of_ge _ (toISOString_length d)⟩, ?_, ?_⟩
  · intro s hs hlen
    constructor
    · show (if s = "" then none else some (if 10 ≤ s.data.length then strSlice10 s else s)) =
        some (strSlice10 s)
      rw [if_neg hs, if_pos hlen]
    · exact strSlice10_length_of_ge _ hlen
  · intro s hs hlen
    show (if s = "" then none else some (if 10 ≤ s.data.length then strSlice10 s else s)) = some s
    rw [if_neg hs, if_neg (by omega)]

/-- C9 witness: the amended statement evaluated at a concrete `Date`, a
concrete long string and a concrete short string. -/
theorem normalizeDate_amended_witness :
    (normalizeDate (some (.vdate ⟨2020, 3, 4, 5, 6, 7, 8⟩)) =
        some (strSlice10 (JsDate.toISOString ⟨2020, 3, 4, 5, 6, 7, 8⟩)) ∧
      (strSlice10 (JsDate.toISOString ⟨2020, 3, 4, 5, 6, 7, 8⟩)).data.length = 10) ∧
    normalizeDate (some (.vstr "2021-03-04T00:00:00")) = some (strSlice10 "2021-03-04T00:00:00") ∧
    normalizeDate (some (.vstr "2020-1-1")) = some "2020-1-1" :=
  ⟨normalizeDate_amended.1 ⟨2020, 3, 4, 5, 6, 7, 8⟩,
    (normalizeDate_amended.2.1 "2021-03-04T00:00:00" (by decide) (by decide)).1,
    normalizeDate_amended.2.2 "2020-1-1" (by decide) (by decide)⟩

/-- C10: a `deleteAuthor` call whose id does not normalize to a positive
integer (malformed, fractional, zero or negative) throws `Invalid author id`
rather than returning a boolean. -/
theorem deleteAuthor_malformed_throws :
    ∀ (st : Stores) (ld : Loaders) (id : String) (failAt : Option DelFail),
      ¬ (isPositiveIntegerNum (jsNumber id) = true) →
      (deleteAuthorRun st ld id failAt).result = .error "Invalid author id" := by
  intro st ld id failAt h
  unfold deleteAuthorRun
  rw [if_pos h]

/-- C10 witness: concrete malformed, fractional and non-positive ids all
throw. -/
theorem deleteAuthor_malformed_throws_witness :
    (deleteAuthorRun demoStores emptyLoaders "abc" none).result = .error "Invalid author id" ∧
    (deleteAuthorRun demoStores emptyLoaders "-2" none).result = .error "Invalid author id" ∧
    (deleteAuthorRun demoStores emptyLoaders "0" none).result = .error "Invalid author id" :=
  ⟨deleteAuthor_malformed_throws demoStores emptyLoaders "abc" none (by decide),
    deleteAuthor_malformed_throws demoStores emptyLoaders "-2" none (by decide),
    deleteAuthor_malformed_throws demoStores emptyLoaders "0" none (by decide)⟩

/-- C7: deleting a non-existent author with a well-formed id returns `false`
(not an error), leaves all three stores unchanged, and issues no write to any
store (the only store operation is the store-A existence select). -/
theorem deleteAuthor_missing_returns_false :
    ∀ (st : Stores) (ld : Loaders) (id : String) (failAt : Option DelFail),
      isPositiveIntegerNum (jsNumber id) = true →
      st.authors.any (fun r => r.id = (jsNumber id).toNatVal) = false →
      (deleteAuthorRun st ld id failAt).result = .ok false ∧
      (deleteAuthorRun st ld id failAt).stores = st ∧
      (deleteAuthorRun st ld id failAt).loaders = ld ∧
      (deleteAuthorRun st ld id failAt).trace = [.selectAuthorA (jsNumber id)] ∧
      ((deleteAuthorRun st ld id failAt).trace.filter StoreOp.isWrite) = [] := by
  intro st ld id failAt h1 h2
  unfold deleteAuthorRun
  rw [if_neg (by simp [h1]), if_pos (by simp [h2])]
  exact ⟨rfl, rfl, rfl, rfl, rfl⟩

/-- C7 witness: deleting the missing author "2" from the demo stores. -/
theorem deleteAuthor_missing_returns_false_witness :
    (deleteAuthorRun demoStores emptyLoaders "2" none).result = .ok false ∧
    (deleteAuthorRun demoStores emptyLoaders "2" none).stores = demoStores ∧
    ((deleteAuthorRun demoStores emptyLoaders "2" none).trace.filter StoreOp.isWrite) = [] := by
  have h := deleteAuthor_missing_returns_false demoStores emptyLoaders "2" none
    (by decide) (by decide)
  exact ⟨h.1, h.2.1, h.2.2.2.2⟩

/-- C5 counterexample: `"abc"` is a malformed identifier (it normalizes to
NaN), yet `Query.author` is not rejected before a store is touched — it
issues the store-A select with the NaN parameter. -/
theorem queryAuthor_malformed_touches_store :
    (jsNumber "abc").isNaN = true ∧
    (queryAuthorRun demoStores "abc").2 = [.selectAuthorA .nan] ∧
    ¬ (queryAuthorRun demoStores "abc").2 = [] := by
  refine ⟨by decide, by decide, by decide⟩

/-- C5 (amended): string-to-numeric normalization is exact and lossless on
canonically printed identifiers (`Number(String(n)) = n`); the mutation
identifier arguments — `addReview`'s `bookId`, `deleteAuthor`'s `id`,
`addBook`'s `authorId` and its explicit Book `id` when supplied — are
validated, a malformed one failing deterministically before any store
operation; but the plain query lookup (`Query.author`) performs no
validation and always issues its store-A select, passing the (possibly NaN)
normalized value to the store. -/
theorem identifier_normalization_amended :
    (∀ n : Nat, jsNumber (natToString n) = JsNum.num (n : ℚ)) ∧
    (∀ (st : Stores) (ld : Loaders) (bid nm cm : String) (r : Int),
      (jsNumber bid).isNaN = true →
      (addReviewRun st ld bid nm r cm).result = .error "Invalid bookId" ∧
      (addReviewRun st ld bid nm r cm).trace = []) ∧
    (∀ (st : Stores) (ld : Loaders) (id : String) (failAt : Option DelFail),
      ¬ (isPositiveIntegerNum (jsNumber id) = true) →
      (deleteAuthorRun st ld id failAt).result = .error "Invalid author id" ∧
      (deleteAuthorRun st ld id failAt).trace = []) ∧
    (∀ (st : Stores) (ld : Loaders) (input : AddBookInput),
      ¬ (isPositiveIntegerNum (jsNumber input.authorId) = true) →
      (addBookRun st ld input).result = .error "authorId must be a positive integer" ∧
      (addBookRun st ld input).trace = []) ∧
    (∀ (st : Stores) (ld : Loaders) (input : AddBookInput) (s : String),
      isPositiveIntegerNum (jsNumber input.authorId) = true →
      input.id = some s →
      ¬ (isPositiveIntegerNum (jsNumber s) = true) →
      (addBookRun st ld input).result =
        .error "Book id must be a positive integer when provided" ∧
      (addBookRun st ld input).trace = []) ∧
    (∀ (st : Stores) (id : String),
      (queryAuthorRun st id).2 = [.selectAuthorA (jsNumber id)]) := by
  refine ⟨jsNumber_natToString, ?_, ?_, ?_, ?_, ?_⟩
  · intro st ld bid nm cm r h
    unfold addReviewRun
    rw [if_pos h]
    exact ⟨rfl, rfl⟩
  · intro st ld id failAt h
    unfold deleteAuthorRun
    rw [if_pos h]
    exact ⟨rfl, rfl⟩
  · intro st ld input h
    unfold addBookRun
    rw [if_pos h]
    exact ⟨rfl, rfl⟩
  · intro st ld input s h1 hs h3
    have hrun : addBookRun st ld input =
        ⟨.error "Book id must be a positive integer when provided", [], st, ld⟩ := by
      simp [addBookRun, hs, h1, h3]
    rw [hrun]
    exact ⟨rfl, rfl⟩
  · intro st id
    rfl

/-- C5 witness: the amended statement at concrete inputs — a canonical id
round-trips, each mutation identifier argument (the addBook explicit Book id
included) rejects a malformed or non-positive value with an empty trace, and
the query path still issues its select for `"abc"`. -/
theorem identifier_normalization_amended_witness :
    jsNumber (natToString 42) = JsNum.num (42 : ℚ) ∧
    (addReviewRun demoStores emptyLoaders "abc" "Bob" 3 "x").trace = [] ∧
    (deleteAuthorRun demoStores emptyLoaders "-2" none).result = .error "Invalid author id" ∧
    (addBookRun demoStores emptyLoaders ⟨"abc", "T", none, none, none, none⟩).trace = [] ∧
    ((addBookRun demoStores emptyLoaders ⟨"1", "T", none, none, none, some "abc"⟩).result =
        .error "Book id must be a positive integer when provided" ∧
      (addBookRun demoStores emptyLoaders ⟨"1", "T", none, none, none, some "abc"⟩).trace =
        []) ∧
    (queryAuthorRun demoStores "abc").2 = [.selectAuthorA (jsNumber "abc")] :=
  ⟨identifier_normalization_amended.1 42,
    (identifier_normalization_amended.2.1 demoStores emptyLoaders "abc" "Bob" "x" 3 (by decide)).2,
    (identifier_normalization_amended.2.2.1 demoStores emptyLoaders "-2" none (by decide)).1,
    (identifier_normalization_amended.2.2.2.1 demoStores emptyLoaders
      ⟨"abc", "T", none, none, none, none⟩ (by decide)).2,
    identifier_normalization_amended.2.2.2.2.1 demoStores emptyLoaders
      ⟨"1", "T", none, none, none, some "abc"⟩ "abc" (by decide) rfl (by decide),
    identifier_normalization_amended.2.2.2.2.2 demoStores "abc"⟩

/-- C1 counterexample: for the existing author "1" with one referencing
book, the successful `deleteAuthor` run issues the store-A author deletion
(trace position 5) strictly *before* the store-B commit (trace position 6,
the final event) — refuting, at this input, the claim that the store-A
deletion is attempted only after the store-B transaction has committed. -/
theorem deleteAuthor_storeA_delete_before_commitB :
    (deleteAuthorRun demoStores emptyLoaders "1" none).trace =
      [.selectAuthorA (.num 1), .selectBooksByAuthorOneB (.num 1), .beginB,
        .deleteBooksB [1], .deleteReviewsC [1], .deleteAuthorA 1, .commitB] ∧
    (deleteAuthorRun demoStores emptyLoaders "1" none).result = .ok true ∧
    (deleteAuthorRun demoStores emptyLoaders "1" none).trace.get? 5 = some (.deleteAuthorA 1) ∧
    (deleteAuthorRun demoStores emptyLoaders "1" none).trace.get? 6 = some .commitB :=
  ⟨by decide, rfl, by decide, by decide⟩

/-- C1 (amended): for a well-formed id of an existing author, the store-A
author deletion is attempted inside the store-B transaction — after the
store-B book deletions (and store-C review deletions) and *before* the
store-B commit, which is the final step of a successful run; and if any step
after the store-B transaction begins fails (the store-A deletion and the
commit itself included), the store-B transaction is rolled back — the books
store is left unchanged — and the error is surfaced. -/
theorem deleteAuthor_ordering_and_rollback :
    ∀ (st : Stores) (ld : Loaders) (id : String) (f : DelFail),
      isPositiveIntegerNum (jsNumber id) = true →
      st.authors.any (fun r => r.id = (jsNumber id).toNatVal) = true →
      ((deleteAuthorRun st ld id none).trace =
          [.selectAuthorA (jsNumber id), .selectBooksByAuthorOneB (jsNumber id), .beginB] ++
          (if delBookIds st (jsNumber id).toNatVal = [] then []
           else [.deleteBooksB (delBookIds st (jsNumber id).toNatVal),
                 .deleteReviewsC (delBookIds st (jsNumber id).toNatVal)]) ++
          [.deleteAuthorA (jsNumber id).toNatVal, .commitB] ∧
        (deleteAuthorRun st ld id none).result = .ok true) ∧
      ((f = .atDeleteAuthor ∨ f = .atCommit ∨ delBookIds st (jsNumber id).toNatVal ≠ []) →
        (∃ e, (deleteAuthorRun st ld id (some f)).result = .error e) ∧
        (deleteAuthorRun st ld id (some f)).trace.getLast? = some .rollbackB ∧
        (deleteAuthorRun st ld id (some f)).stores.books = st.books) := by
  intro st ld id f h1 h2
  have hne1 : ¬ ¬ (isPositiveIntegerNum (jsNumber id) = true) := by simp [h1]
  have hne2 : ¬ ¬ (st.authors.any (fun r => r.id = (jsNumber id).toNatVal) = true) := by
    simp [h2]
  constructor
  · have d1 : ¬ ((none : Option DelFail) = some DelFail.atDeleteBooks ∧
        delBookIds st (jsNumber id).toNatVal ≠ []) := by simp
    have d2 : ¬ ((none : Option DelFail) = some DelFail.atDeleteReviews ∧
        delBookIds st (jsNumber id).toNatVal ≠ []) := by simp
    have d3 : ¬ ((none : Option DelFail) = some DelFail.atDeleteAuthor) := by simp
    have d4 : ¬ ((none : Option DelFail) = some DelFail.atCommit) := by simp
    constructor
    · simp only [deleteAuthorRun]
      rw [if_neg hne1, if_neg hne2, if_neg d1, if_neg d2, if_neg d3, if_neg d4]
      by_cases hb : delBookIds st (jsNumber id).toNatVal = []
      · simp [hb]
      · simp [hb]
    · simp only [deleteAuthorRun]
      rw [if_neg hne1, if_neg hne2, if_neg d1, if_neg d2, if_neg d3, if_neg d4]
  · intro h3
    cases f with
    | atDeleteBooks =>
      have hbne : delBookIds st (jsNumber id).toNatVal ≠ [] := by
        rcases h3 with h | h | h
        · exact DelFail.noConfusion h
        · exact DelFail.noConfusion h
        · exact h
      simp only [deleteAuthorRun]
      rw [if_neg hne1, if_neg hne2, if_pos (And.intro trivial hbne)]
      exact ⟨⟨_, rfl⟩, List.getLast?_concat _, rfl⟩
    | atDeleteReviews =>
      have hbne : delBookIds st (jsNumber id).toNatVal ≠ [] := by
        rcases h3 with h | h | h
        · exact DelFail.noConfusion h
        · exact DelFail.noConfusion h
        · exact h
      have c1 : ¬ (some DelFail.atDeleteReviews = some DelFail.atDeleteBooks ∧
          delBookIds st (jsNumber id).toNatVal ≠ []) := by simp
      simp only [deleteAuthorRun]
      rw [if_neg hne1, if_neg hne2, if_neg c1, if_pos (And.intro trivial hbne)]
      exact ⟨⟨_, rfl⟩, List.getLast?_concat _, rfl⟩
    | atDeleteAuthor =>
      have c1 : ¬ (some DelFail.atDeleteAuthor = some DelFail.atDeleteBooks ∧
          delBookIds st (jsNumber id).toNatVal ≠ []) := by simp
      have c2 : ¬ (some DelFail.atDeleteAuthor = some DelFail.atDeleteReviews ∧
          delBookIds st (jsNumber id).toNatVal ≠ []) := by simp
      simp only [deleteAuthorRun]
      rw [if_neg hne1, if_neg hne2, if_neg c1, if_neg c2, if_pos trivial]
      exact ⟨⟨_, rfl⟩, List.getLast?_concat _, rfl⟩
    | atCommit =>
      have c1 : ¬ (some DelFail.atCommit = some DelFail.atDeleteBooks ∧
          delBookIds st (jsNumber id).toNatVal ≠ []) := by simp
      have c2 : ¬ (some DelFail.atCommit = some DelFail.atDeleteReviews ∧
          delBookIds st (jsNumber id).toNatVal ≠ []) := by simp
      have c3 : ¬ (some DelFail.atCommit = some DelFail.atDeleteAuthor) := by simp
      simp only [deleteAuthorRun]
      rw [if_neg hne1, if_neg hne2, if_neg c1, if_neg c2, if_neg c3, if_pos trivial]
      exact ⟨⟨_, rfl⟩, List.getLast?_concat _, rfl⟩

/-- C1 witness: the amended statement at the demo stores — the clean run
succeeds, and a commit-step fault is rolled back with store B unchanged. -/
theorem deleteAuthor_ordering_and_rollback_witness :
    (deleteAuthorRun demoStores emptyLoaders "1" none).result = .ok true ∧
    (deleteAuthorRun demoStores emptyLoaders "1" (some .atCommit)).trace.getLast? =
      some .rollbackB ∧
    (deleteAuthorRun demoStores emptyLoaders "1" (some .atCommit)).stores.books =
      demoStores.books := by
  have h := deleteAuthor_ordering_and_rollback demoStores emptyLoaders "1" DelFail.atCommit
    (by decide) (by decide)
  have h2 := h.2 (Or.inr (Or.inl rfl))
  exact ⟨h.1.2, h2.2.1, h2.2.2⟩

/-- C2: each loader batch function returns a sequence of the same length and
order as its key list `K`, duplicates included: position `i` of the result is
a function of key `i` alone — the mapped last matching row (so `null` when no
row matches) for the to-one loaders `authorById`/`bookById`, and the mapped
list of matching rows in row order (so `[]` when none match) for the to-many
loaders `booksByAuthorId`/`reviewsByBookId`.  No key is dropped. -/
theorem loader_batch_length_order :
    ∀ (st : Stores) (keys : List JsVal),
      ((authorByIdBatch st keys).1.length = keys.length ∧
        ∀ i (h : i < keys.length),
          (authorByIdBatch st keys).1.get? i =
            some (((st.authors.filter
                (fun r => JsNum.num (r.id : ℚ) = jsToNumber (keys.get ⟨i, h⟩))).getLast?).map
              mapAuthorRow)) ∧
      ((booksByAuthorIdBatch st keys).1.length = keys.length ∧
        ∀ i (h : i < keys.length),
          (booksByAuthorIdBatch st keys).1.get? i =
            some ((st.books.filter
                (fun b => JsNum.num (b.author_id : ℚ) = jsToNumber (keys.get ⟨i, h⟩))).map
              mapBookRow)) ∧
      ((bookByIdBatch st keys).1.length = keys.length ∧
        ∀ i (h : i < keys.length),
          (bookByIdBatch st keys).1.get? i =
            some (((st.books.filter
                (fun b => JsNum.num (b.id : ℚ) = jsToNumber (keys.get ⟨i, h⟩))).getLast?).map
              mapBookRow)) ∧
      ((reviewsByBookIdBatch st keys).1.length = keys.length ∧
        ∀ i (h : i < keys.length),
          (reviewsByBookIdBatch st keys).1.get? i =
            some ((st.reviews.filter
                (fun r => JsNum.num (r.book_id : ℚ) = jsToNumber (keys.get ⟨i, h⟩))).map
              mapReviewRow)) := by
  intro st keys
  refine ⟨⟨?_, ?_⟩, ⟨?_, ?_⟩, ⟨?_, ?_⟩, ⟨?_, ?_⟩⟩
  · by_cases hk : keys = []
    · subst hk; rfl
    · simp [authorByIdBatch, hk]
  · intro i h
    by_cases hk : keys = []
    · subst hk; exact absurd h (by simp)
    · simp only [authorByIdBatch, if_neg hk]
      rw [List.get?_map, List.get?_map, List.get?_eq_get h]
      have hmem : jsToNumber (keys.get ⟨i, h⟩) ∈ keys.map jsToNumber :=
        List.mem_map_of_mem jsToNumber (List.get_mem keys i h)
      simp only [Option.map_some', Function.comp_apply]
      rw [batchToOne_get st.authors (fun r => JsNum.num (r.id : ℚ)) mapAuthorRow
        (keys.map jsToNumber) (jsToNumber (keys.get ⟨i, h⟩)) hmem]
  · by_cases hk : keys = []
    · subst hk; rfl
    · simp [booksByAuthorIdBatch, hk]
  · intro i h
    by_cases hk : keys = []
    · subst hk; exact absurd h (by simp)
    · simp only [booksByAuthorIdBatch, if_neg hk]
      rw [List.get?_map, List.get?_map, List.get?_eq_get h]
      have hmem : jsToNumber (keys.get ⟨i, h⟩) ∈ keys.map jsToNumber :=
        List.mem_map_of_mem jsToNumber (List.get_mem keys i h)
      simp only [Option.map_some', Function.comp_apply]
      rw [batchToMany_get st.books (fun b => JsNum.num (b.author_id : ℚ)) mapBookRow
        (keys.map jsToNumber) (jsToNumber (keys.get ⟨i, h⟩)) hmem]
  · by_cases hk : keys = []
    · subst hk; rfl
    · simp [bookByIdBatch, hk]
  · intro i h
    by_cases hk : keys = []
    · subst hk; exact absurd h (by simp)
    · simp only [bookByIdBatch, if_neg hk]
      rw [List.get?_map, List.get?_map, List.get?_eq_get h]
      have hmem : jsToNumber (keys.get ⟨i, h⟩) ∈ keys.map jsToNumber :=
        List.mem_map_of_mem jsToNumber (List.get_mem keys i h)
      simp only [Option.map_some', Function.comp_apply]
      rw [batchToOne_get st.books (fun b => JsNum.num (b.id : ℚ)) mapBookRow
        (keys.map jsToNumber) (jsToNumber (keys.get ⟨i, h⟩)) hmem]
  · by_cases hk : keys = []
    · subst hk; rfl
    · simp [reviewsByBookIdBatch, hk]
  · intro i h
    by_cases hk : keys = []
    · subst hk; exact absurd h (by simp)
    · simp only [reviewsByBookIdBatch, if_neg hk]
      rw [List.get?_map, List.get?_map, List.get?_eq_get h]
      have hmem : jsToNumber (keys.get ⟨i, h⟩) ∈ keys.map jsToNumber :=
        List.mem_map_of_mem jsToNumber (List.get_mem keys i h)
      simp only [Option.map_some', Function.comp_apply]
      rw [batchToMany_get st.reviews (fun r => JsNum.num (r.book_id : ℚ)) mapReviewRow
        (keys.map jsToNumber) (jsToNumber (keys.get ⟨i, h⟩)) hmem]

/-- C2 witness: the batch shape at the demo stores with a duplicate-free and
an unmatched key (`"2"` matches nothing: `null` for to-one, `[]`
for to-many). -/
theorem loader_batch_length_order_witness :
    (authorByIdBatch demoStores [.vstr "1", .vstr "2"]).1.length = 2 ∧
    (authorByIdBatch demoStores [.vstr "1", .vstr "2"]).1.get? 1 =
      some (((demoStores.authors.filter
          (fun r => JsNum.num (r.id : ℚ) =
            jsToNumber ([JsVal.vstr "1", JsVal.vstr "2"].get ⟨1, by decide⟩))).getLast?).map
        mapAuthorRow) ∧
    (booksByAuthorIdBatch demoStores [.vstr "1", .vstr "2"]).1.get? 1 =
      some ((demoStores.books.filter
          (fun b => JsNum.num (b.author_id : ℚ) =
            jsToNumber ([JsVal.vstr "1", JsVal.vstr "2"].get ⟨1, by decide⟩))).map mapBookRow) ∧
    (bookByIdBatch demoStores [.vstr "1", .vstr "2"]).1.get? 0 =
      some (((demoStores.books.filter
          (fun b => JsNum.num (b.id : ℚ) =
            jsToNumber ([JsVal.vstr "1", JsVal.vstr "2"].get ⟨0, by decide⟩))).getLast?).map
        mapBookRow) ∧
    (reviewsByBookIdBatch demoStores [.vstr "1", .vstr "2"]).1.get? 0 =
      some ((demoStores.reviews.filter
          (fun r => JsNum.num (r.book_id : ℚ) =
            jsToNumber ([JsVal.vstr "1", JsVal.vstr "2"].get ⟨0, by decide⟩))).map
        mapReviewRow) := by
  have h := loader_batch_length_order demoStores [.vstr "1", .vstr "2"]
  exact ⟨h.1.1, h.1.2 1 (by decide), h.2.1.2 1 (by decide), h.2.2.1.2 0 (by decide),
    h.2.2.2.2 0 (by decide)⟩

/-- C3: the code violates the cache-invalidation claim.  `Book.reviews`
caches under the *string* key `"1"`, but a subsequent successful
`addReview(bookId: "1", ...)` clears `reviewsByBookId` only under the
*numeric* key `1` (DataLoader `Map` keys compare by SameValueZero, so the two
are distinct entries).  Re-reading `Book.reviews` for the same book in the
same request is served from the stale cache — the empty pre-write list, with
no store access — even though store C now holds the new review. -/
theorem addReview_stale_reviews_cache :
    (let s1 := bookReviewsResolve demoStores emptyLoaders (mapBookRow notesRow)
     let m := addReviewRun demoStores s1.2.1 "1" "Bob" 5 "great"
     let s3 := bookReviewsResolve m.stores m.loaders (mapBookRow notesRow)
     s1.1 = [] ∧
     m.result = .ok (mapReviewRow ⟨1, 1, "Bob", 5, "great"⟩) ∧
     m.stores.reviews = [⟨1, 1, "Bob", 5, "great"⟩] ∧
     s3.1 = [] ∧
     s3.2.2 = []) :=
  ⟨by decide, rfl, by decide, by decide, by decide⟩

/-- C4 counterexample: with an empty store A, `addBook` for
`authorId = "1"` (which references no existing Author) and a
whitespace-only title fails with the *title validation* error, not with the
not-found condition the claim requires for every call whose `authorId` does
not reference an existing Author. -/
theorem addBook_title_error_preempts_not_found :
    (addBookRun ⟨[], [], []⟩ emptyLoaders ⟨"1", "   ", none, none, none, none⟩).result =
      .error "title is required" ∧
    ¬ ((addBookRun ⟨[], [], []⟩ emptyLoaders ⟨"1", "   ", none, none, none, none⟩).result =
        .error ("Author " ++ "1" ++ " not found")) ∧
    (⟨[], [], []⟩ : Stores).authors.any (fun r => r.id = (jsNumber "1").toNatVal) = false := by
  refine ⟨rfl, ?_, by decide⟩
  intro hx
  rw [show (addBookRun ⟨[], [], []⟩ emptyLoaders ⟨"1", "   ", none, none, none, none⟩).result =
      .error "title is required" from rfl] at hx
  injection hx with h
  exact absurd h (by decide)

/-- Validity of an optional explicit Book id: when present it must normalize
to a positive integer (otherwise `addBook` fails earlier with its own
validation error). -/
def explicitIdOk (inp : AddBookInput) : Prop :=
  ∀ s, inp.id = some s → isPositiveIntegerNum (jsNumber s) = true

theorem addBookRun_eq_validated_none (st : Stores) (ld : Loaders) (inp : AddBookInput)
    (hpos2 : isPositiveIntegerNum (jsNumber inp.authorId) = true) (hs : inp.id = none) :
    addBookRun st ld inp = addBookValidated st ld inp (jsNumber inp.authorId) none := by
  simp [addBookRun, hs, hpos2]

theorem addBookRun_eq_validated_some (st : Stores) (ld : Loaders) (inp : AddBookInput)
    (s : String) (hpos2 : isPositiveIntegerNum (jsNumber inp.authorId) = true)
    (hs : inp.id = some s) (hpos : isPositiveIntegerNum (jsNumber s) = true) :
    addBookRun st ld inp =
      addBookValidated st ld inp (jsNumber inp.authorId) (some (jsNumber s).toNatVal) := by
  simp [addBookRun, hs, hpos2, hpos]

/-- C4 (amended): an `addBook` call whose `authorId` is not a positive
integer fails with the `authorId` validation error before any store
operation; and a call that passes all input validations (title non-empty
after trimming, explicit id — when supplied — a positive integer) whose
`authorId` references no existing Author fails with the not-found condition.
In both failure cases nothing is written to store B. -/
theorem addBook_validation_and_not_found :
    ∀ (st1 : Stores) (ld1 : Loaders) (inp1 : AddBookInput)
      (st2 : Stores) (ld2 : Loaders) (inp2 : AddBookInput),
      ¬ (isPositiveIntegerNum (jsNumber inp1.authorId) = true) →
      isPositiveIntegerNum (jsNumber inp2.authorId) = true →
      explicitIdOk inp2 →
      ¬ (toNullableString (some inp2.title) = none) →
      st2.authors.any (fun r => r.id = (jsNumber inp2.authorId).toNatVal) = false →
      ((addBookRun st1 ld1 inp1).result = .error "authorId must be a positive integer" ∧
        (addBookRun st1 ld1 inp1).trace = [] ∧
        (addBookRun st1 ld1 inp1).stores = st1) ∧
      ((addBookRun st2 ld2 inp2).result = .error ("Author " ++ inp2.authorId ++ " not found") ∧
        ((addBookRun st2 ld2 inp2).trace.filter StoreOp.isWriteB) = [] ∧
        (addBookRun st2 ld2 inp2).stores = st2) := by
  intro st1 ld1 inp1 st2 ld2 inp2 h1 h2 hid ht ha
  constructor
  · unfold addBookRun
    rw [if_pos h1]
    exact ⟨rfl, rfl, rfl⟩
  · have hvalid : ∀ d : Option Nat,
        ((addBookValidated st2 ld2 inp2 (jsNumber inp2.authorId) d).result =
            .error ("Author " ++ inp2.authorId ++ " not found") ∧
          ((addBookValidated st2 ld2 inp2 (jsNumber inp2.authorId) d).trace.filter
            StoreOp.isWriteB) = [] ∧
          (addBookValidated st2 ld2 inp2 (jsNumber inp2.authorId) d).stores = st2) := by
      intro d
      cases htt : toNullableString (some inp2.title) with
      | none => exact absurd htt ht
      | some t =>
        simp only [addBookValidated, htt]
        rw [if_pos (by simp [ha])]
        exact ⟨rfl, rfl, rfl⟩
    cases hii : inp2.id with
    | none =>
      rw [addBookRun_eq_validated_none st2 ld2 inp2 h2 hii]
      exact hvalid none
    | some s =>
      rw [addBookRun_eq_validated_some st2 ld2 inp2 s h2 hii (hid s hii)]
      exact hvalid _

/-- C4 witness: the amended statement at concrete inputs — a malformed
`authorId` is rejected with no store access, and a well-formed `authorId`
referencing no Author (empty store A) yields the not-found error with no
store-B write. -/
theorem addBook_validation_and_not_found_witness :
    (addBookRun demoStores emptyLoaders ⟨"abc", "T", none, none, none, none⟩).result =
      .error "authorId must be a positive integer" ∧
    (addBookRun demoStores emptyLoaders ⟨"abc", "T", none, none, none, none⟩).trace = [] ∧
    (addBookRun ⟨[], [], []⟩ emptyLoaders ⟨"1", "T", none, none, none, none⟩).result =
      .error ("Author " ++ "1" ++ " not found") ∧
    ((addBookRun ⟨[], [], []⟩ emptyLoaders ⟨"1", "T", none, none, none, none⟩).trace.filter
      StoreOp.isWriteB) = [] := by
  have h := addBook_validation_and_not_found demoStores emptyLoaders
    ⟨"abc", "T", none, none, none, none⟩ ⟨[], [], []⟩ emptyLoaders
    ⟨"1", "T", none, none, none, none⟩ (by decide) (by decide)
    (by intro s hs; exact Option.noConfusion hs) (by decide) (by decide)
  exact ⟨h.1.1, h.1.2.1, h.2.1, h.2.2.1⟩

/-- C6: with a `bookId` that resolves to an existing Book (cold cache), a
rating outside 1..5 — 0 and 6 included — fails validation with no store-C
insert and no store change, while ratings 1 and 5 succeed: the created
review row is appended to store C and returned in canonical form. -/
theorem addReview_rating_bounds :
    ∀ (st : Stores) (ld : Loaders) (bid nm cm : String) (rBad rGood : Int),
      (rBad < 1 ∨ 5 < rBad) →
      (rGood = 1 ∨ rGood = 5) →
      cacheGet ld.bookById (.vnum (jsNumber bid)) = none →
      st.books.any (fun b => JsNum.num (b.id : ℚ) = jsNumber bid) = true →
      ((addReviewRun st ld bid nm rBad cm).result = .error "Rating must be between 1 and 5" ∧
        ((addReviewRun st ld bid nm rBad cm).trace.filter StoreOp.isWriteC) = [] ∧
        (addReviewRun st ld bid nm rBad cm).stores = st) ∧
      ((addReviewRun st ld bid nm rGood cm).result =
          .ok (mapReviewRow ⟨maxReviewId st + 1, (jsNumber bid).toNatVal, nm, rGood, cm⟩) ∧
        (addReviewRun st ld bid nm rGood cm).stores.reviews =
          st.reviews ++ [⟨maxReviewId st + 1, (jsNumber bid).toNatVal, nm, rGood, cm⟩]) := by
  intro st ld bid nm cm rBad rGood hb hg hcache hex
  have hnan : (jsNumber bid).isNaN = false := by
    rcases List.any_eq_true.mp hex with ⟨b, _, hbq⟩
    have hq : JsNum.num (b.id : ℚ) = jsNumber bid := by simpa using hbq
    rw [← hq]
    rfl
  constructor
  · unfold addReviewRun
    rw [if_neg (by simp [hnan]), if_pos hb]
    exact ⟨rfl, rfl, rfl⟩
  · have hload : ∃ b', (loadBookById st ld (.vnum (jsNumber bid))).1 = some b' := by
      unfold loadBookById
      rw [hcache]
      show ∃ b', (bookByIdBatch st [.vnum (jsNumber bid)]).1.getD 0 none = some b'
      have hmem : jsNumber bid ∈ [JsVal.vnum (jsNumber bid)].map jsToNumber := by
        simp [jsToNumber]
      have hne : ¬ ([JsVal.vnum (jsNumber bid)] = ([] : List JsVal)) := by simp
      simp only [bookByIdBatch, if_neg hne]
      rcases List.any_eq_true.mp hex with ⟨b, hbm, hbq⟩
      have hq : JsNum.num (b.id : ℚ) = jsNumber bid := by simpa using hbq
      have hfil : b ∈ st.books.filter (fun x => JsNum.num (x.id : ℚ) = jsNumber bid) :=
        List.mem_filter.mpr ⟨hbm, by simp [hq]⟩
      have hnn : st.books.filter (fun x => JsNum.num (x.id : ℚ) = jsNumber bid) ≠ [] :=
        List.ne_nil_of_mem hfil
      show ∃ b',
        assocGet (jsMapOfList ((st.books.filter
            (fun x => ([JsVal.vnum (jsNumber bid)].map jsToNumber).any
              (fun k => k = JsNum.num (x.id : ℚ)))).map
          (fun x => (JsNum.num (x.id : ℚ), mapBookRow x)))) (jsNumber bid) = some b'
      rw [batchToOne_get st.books (fun x => JsNum.num (x.id : ℚ)) mapBookRow
        ([JsVal.vnum (jsNumber bid)].map jsToNumber) (jsNumber bid) hmem]
      cases hlast : (st.books.filter (fun x => JsNum.num (x.id : ℚ) = jsNumber bid)).getLast? with
      | none => exact absurd (List.getLast?_eq_none_iff.mp hlast) hnn
      | some bl => exact ⟨mapBookRow bl, by simp [hlast]⟩
    obtain ⟨b', hb'⟩ := hload
    have hgood : ¬ (rGood < 1 ∨ 5 < rGood) := by
      rcases hg with h | h <;> subst h <;> decide
    simp only [addReviewRun]
    rw [if_neg (by simp [hnan]), if_neg hgood, hb']
    exact ⟨rfl, rfl⟩

/-- C6 witness: at the demo stores, rating 0 and 6 fail with no store-C
write; ratings 1 and 5 succeed and append the created review. -/
theorem addReview_rating_bounds_witness :
    ((addReviewRun demoStores emptyLoaders "1" "Bob" 0 "c").result =
        .error "Rating must be between 1 and 5" ∧
      (addReviewRun demoStores emptyLoaders "1" "Bob" 6 "c").result =
        .error "Rating must be between 1 and 5") ∧
    ((addReviewRun demoStores emptyLoaders "1" "Bob" 1 "c").result =
        .ok (mapReviewRow ⟨maxReviewId demoStores + 1, (jsNumber "1").toNatVal, "Bob", 1, "c"⟩) ∧
      (addReviewRun demoStores emptyLoaders "1" "Bob" 5 "c").stores.reviews =
        demoStores.reviews ++
          [⟨maxReviewId demoStores + 1, (jsNumber "1").toNatVal, "Bob", 5, "c"⟩]) := by
  have h0 := addReview_rating_bounds demoStores emptyLoaders "1" "Bob" "c" 0 1
    (by omega) (by omega) (by decide) (by decide)
  have h6 := addReview_rating_bounds demoStores emptyLoaders "1" "Bob" "c" 6 5
    (by omega) (by omega) (by decide) (by decide)
  exact ⟨⟨h0.1.1, h6.1.1⟩, h0.2.1, h6.2.2⟩

/-- C8: whenever `addAuthor` succeeds (w.r.t. any prior request state), the
`booksByAuthorId` loader is primed with the empty collection under the new
author's string id — exactly the key the `Author.books` resolver uses — so
reading `books` on the created author in the same request returns `[]` (not
null, not an error) from the cache, with no store operation and no cache
mutation. -/
theorem addAuthor_books_primed_empty :
    ∀ (st : Stores) (ld : Loaders) (inp : AddAuthorInput) (today : JsDate) (a : Author),
      (addAuthorRun st ld inp today).result = .ok a →
      (authorBooksResolve (addAuthorRun st ld inp today).stores
          (addAuthorRun st ld inp today).loaders a).1 = [] ∧
      (authorBooksResolve (addAuthorRun st ld inp today).stores
          (addAuthorRun st ld inp today).loaders a).2.2 = [] ∧
      (authorBooksResolve (addAuthorRun st ld inp today).stores
          (addAuthorRun st ld inp today).loaders a).2.1 =
        (addAuthorRun st ld inp today).loaders := by
  intro st ld inp today a h
  cases hf : toNullableString (some inp.firstname) with
  | none =>
    simp only [addAuthorRun, hf] at h
    exact absurd h (by simp)
  | some fn =>
    cases hl : toNullableString (some inp.lastname) with
    | none =>
      simp only [addAuthorRun, hf, hl] at h
      exact absurd h (by simp)
    | some ln =>
      simp only [addAuthorRun, hf, hl] at h ⊢
      have ha : a = mapAuthorRow
          ⟨maxAuthorId st + 1, fn, ln, (toNullableString inp.birthdate).map SqlDate.vstr,
            (toNullableString inp.deathdate).map SqlDate.vstr,
            toNullableString inp.favoriteColor, toNullableString inp.bio,
            toNullableString inp.nationality,
            some (SqlDate.vstr
              ((toNullableString inp.dateCreated).getD (strSlice10 today.toISOString)))⟩ := by
        have := h
        simp only [Except.ok.injEq] at this
        exact this.symm
      subst ha
      unfold authorBooksResolve loadBooksByAuthorId
      rw [cacheGet_clear_prime]
      exact ⟨rfl, rfl, rfl⟩

/-- C8 witness: creating an author in the empty stores and reading the books
edge immediately returns the primed empty collection from cache. -/
theorem addAuthor_books_primed_empty_witness :
    (authorBooksResolve
        (addAuthorRun ⟨[], [], []⟩ emptyLoaders
          ⟨"Ada", "Lovelace", none, none, none, none, none, none⟩ ⟨2020, 1, 2, 3, 4, 5, 6⟩).stores
        (addAuthorRun ⟨[], [], []⟩ emptyLoaders
          ⟨"Ada", "Lovelace", none, none, none, none, none, none⟩ ⟨2020, 1, 2, 3, 4, 5, 6⟩).loaders
        (mapAuthorRow ⟨1, "Ada", "Lovelace", none, none, none, none, none,
          some (SqlDate.vstr (strSlice10 (JsDate.toISOString ⟨2020, 1, 2, 3, 4, 5, 6⟩)))⟩)).1 =
      [] := by
  have h := addAuthor_books_primed_empty ⟨[], [], []⟩ emptyLoaders
    ⟨"Ada", "Lovelace", none, none, none, none, none, none⟩ ⟨2020, 1, 2, 3, 4, 5, 6⟩
    (mapAuthorRow ⟨1, "Ada", "Lovelace", none, none, none, none, none,
      some (SqlDate.vstr (strSlice10 (JsDate.toISOString ⟨2020, 1, 2, 3, 4, 5, 6⟩)))⟩) rfl
  exact h.1

end NodeGql
